import Mathlib

/-! Shallow embedding of `src/field.js` (canvas-vectors): an interactive grid of
arrows that reorient toward the pointer.

Modelling conventions:
* JavaScript numbers are modelled as real numbers for the trigonometric /
  distance computations (`dist`, `angleBetween`, `Vector.update`,
  `Vector.draw`), and as rationals for the lattice-construction code
  (`VectorField.init`, `drawGrid`, `setup`), which only adds, multiplies and
  floors; rationals keep those definitions executable.
* `Math.atan2`, `Math.sqrt`, `Math.floor` become `Math.atan2` (defined below
  by the usual case split), `Real.sqrt`, `Int.floor`.
* The JavaScript `%` on integer-valued operands is the truncated remainder,
  i.e. `Int.tmod`.
* `canvas.width` / `canvas.height` are ambient globals in the source; they are
  passed as explicit `w` / `h` parameters here.
* Mutation of `this` becomes a function returning the updated structure;
  `this.grid.push(row)` appends to the existing `grid` list.
* Canvas drawing calls (`moveTo`/`lineTo`/`stroke`/`fill`) have no effect on
  the program state; where a claim is about the emitted geometry
  (`Vector.draw`, `drawGrid`) the drawing calls are reified as data
  (`DrawCall`, `Segment`).
-/

namespace CanvasField

/-- The JavaScript function `Math.atan2(y, x)`: four-quadrant arctangent, with
`atan2(0, 0) = 0`. -/
noncomputable def Math.atan2 (y x : ℝ) : ℝ :=
  if 0 < x then Real.arctan (y / x)
  else if x < 0 then
    (if 0 ≤ y then Real.arctan (y / x) + Real.pi else Real.arctan (y / x) - Real.pi)
  else if 0 < y then Real.pi / 2
  else if y < 0 then -(Real.pi / 2)
  else 0

/-- Line 39: `dist = (x0, y0, x1, y1) => Math.sqrt((x1-x0)*(x1-x0) + (y1-y0)*(y1-y0))`. -/
noncomputable def dist (x0 y0 x1 y1 : ℝ) : ℝ :=
  Real.sqrt ((x1 - x0) * (x1 - x0) + (y1 - y0) * (y1 - y0))

/-- Line 53: `angleBetween = (x0, y0, x1, y1) => Math.atan2(y1-y0, x1-x0)`. -/
noncomputable def angleBetween (x0 y0 x1 y1 : ℝ) : ℝ :=
  Math.atan2 (y1 - y0) (x1 - x0)

/-- Lines 64-68: a `Vector` has an anchor midpoint `(midX, midY)` (set by the
constructor and never written again) and mutable `angle` / `len`, both `null`
until the first `update`.  Anchors are rationals (the program only ever
builds them from integer offsets and integer spacing); `angle` and `len` are
reals. -/
structure Vector where
  midX : ℚ
  midY : ℚ
  angle : Option ℝ
  len : Option ℝ

instance : Inhabited Vector := ⟨⟨0, 0, none, none⟩⟩

/-- Constructor call `new Vector(x, y)` (lines 64-68): anchor set,
`angle = len = null`. -/
def Vector.make (midX midY : ℚ) : Vector :=
  { midX := midX, midY := midY, angle := none, len := none }

/-- The anchor `(midX, midY)` of a vector. -/
def Vector.anchor (v : Vector) : ℚ × ℚ := (v.midX, v.midY)

/-- Line 112: `factor = d / (canvas.width * 1.3)`. -/
noncomputable def factorOf (d w : ℝ) : ℝ := d / (w * 1.3)

/-- Line 113: `hue = Math.floor(360 * factor * 1.1) % 360` (truncated
remainder, as the JavaScript `%`). -/
noncomputable def hueFromFactor (factor : ℝ) : ℤ :=
  (Int.floor (360 * factor * 1.1)).tmod 360

/-- Line 114: `this.len = (200*factor > 30) ? 30 : 200*factor`. -/
noncomputable def lenFromFactor (factor : ℝ) : ℝ :=
  if 200 * factor > 30 then 30 else 200 * factor

/-- Lines 102-118, `Vector.update(mouseX, mouseY)`: recompute `angle` from the
anchor toward the cursor and `len` from the distance factor.  `w` is the
ambient `canvas.width`. -/
noncomputable def Vector.update (v : Vector) (w mouseX mouseY : ℝ) : Vector :=
  { v with
    angle := some (angleBetween (v.midX : ℝ) (v.midY : ℝ) mouseX mouseY)
    len := some (lenFromFactor
      (factorOf (dist (v.midX : ℝ) (v.midY : ℝ) mouseX mouseY) w)) }

/-- Line 113: the hue computed inside `Vector.update` (a local there, used
only for the HSL color string). -/
noncomputable def Vector.updateHue (v : Vector) (w mouseX mouseY : ℝ) : ℤ :=
  hueFromFactor (factorOf (dist (v.midX : ℝ) (v.midY : ℝ) mouseX mouseY) w)

/-- The geometry emitted by one call of `Vector.draw` (lines 75-94): the
stroked segment runs from `(x0, y0)` to `(x1, y1)`, and `drawArrow` is called
at `(arrowX, arrowY)` (line 93: `this.drawArrow(x0, y0, color)`). -/
structure DrawCall where
  x0 : ℝ
  y0 : ℝ
  x1 : ℝ
  y1 : ℝ
  arrowX : ℝ
  arrowY : ℝ

/-- Lines 75-94, `Vector.draw`: the endpoint arithmetic, with `this.angle`
and `this.len` passed explicitly (`draw` is only ever called by `update`,
which has just set them). -/
noncomputable def Vector.draw (midX midY angle len : ℝ) : DrawCall :=
  let dy := len * Real.sin angle
  let dx := len * Real.cos angle
  let y0 := midY + dy / 2
  let x0 := midX + dx / 2
  let y1 := y0 - dy
  let x1 := x0 - dx
  { x0 := x0, y0 := y0, x1 := x1, y1 := y1, arrowX := x0, arrowY := y0 }

/-- Iteration count of the JavaScript loop `for (let i = 0; i < bound; i++)`:
the counter is a (nonnegative) integer, so the loop body runs once for every
natural number strictly below `bound`, i.e. `⌈bound⌉⁺` times.  The lemma
`jsForCount_iff` below justifies this against the loop guard. -/
def jsForCount (bound : ℚ) : ℕ := (Int.ceil bound).toNat

/-- Inner loop of `VectorField.init` (lines 182-185): starting at `x`, push
`n` vectors, advancing `x` by `spaceX` after each push. -/
def buildRow (x y spaceX : ℚ) : ℕ → List Vector
  | 0 => []
  | n + 1 => Vector.make x y :: buildRow (x + spaceX) y spaceX n

/-- Outer loop of `VectorField.init` (lines 179-189): build `n` rows,
starting each row at `x = xOffset` and advancing `y` by `spaceY` after each
row. -/
def buildRows (xOffset y spaceY spaceX : ℚ) (nCols : ℕ) : ℕ → List (List Vector)
  | 0 => []
  | n + 1 =>
    buildRow xOffset y spaceX nCols :: buildRows xOffset (y + spaceY) spaceY spaceX nCols n

/-- Lines 171-190: the 2-D array of vectors that one run of
`VectorField.init` pushes, with `spaceX = Math.floor(canvas.width / cols)`
and `spaceY = Math.floor(canvas.height / rows)`. -/
def latticeOf (cols rows xOffset yOffset w h : ℚ) : List (List Vector) :=
  buildRows xOffset yOffset ((Int.floor (h / rows) : ℤ) : ℚ)
    ((Int.floor (w / cols) : ℤ) : ℚ) (jsForCount cols) (jsForCount rows)

/-- Lines 163-166: `VectorField` state — `size = [cols, rows]`,
`offsets = [xOffset, yOffset]`, `grid`. -/
structure VectorField where
  size : ℚ × ℚ
  offsets : ℚ × ℚ
  grid : List (List Vector)

/-- Constructor call `new VectorField(cols, rows, xOffset, yOffset)`
(lines 163-166): `grid` starts empty. -/
def VectorField.make (cols rows xOffset yOffset : ℚ) : VectorField :=
  { size := (cols, rows), offsets := (xOffset, yOffset), grid := [] }

/-- Lines 171-190, `VectorField.init()`: each built row is pushed onto the
existing `this.grid` (the grid is not cleared first), so one run appends a
fresh lattice. -/
def VectorField.init (f : VectorField) (w h : ℚ) : VectorField :=
  { f with
    grid := f.grid ++ latticeOf f.size.1 f.size.2 f.offsets.1 f.offsets.2 w h }

/-- One line segment stroked by `drawGrid`. -/
structure Segment where
  x0 : ℚ
  y0 : ℚ
  x1 : ℚ
  y1 : ℚ
  deriving DecidableEq

/-- Lines 195-214, `VectorField.drawGrid()`: one horizontal line per grid row
at `y = row[0].midY` from `x = 0` to `x = canvas.width`, then one vertical
line per entry of `grid[0]` at `x = col.midX` from `y = 0` to
`y = canvas.height`, in that order. -/
def VectorField.drawGridSegments (f : VectorField) (w h : ℚ) : List Segment :=
  (f.grid.map fun row =>
    { x0 := 0, y0 := row.headI.midY, x1 := w, y1 := row.headI.midY })
  ++ (f.grid.headI.map fun v =>
    { x0 := v.midX, y0 := 0, x1 := v.midX, y1 := h })

/-- Lines 219-229, `VectorField.update(mouseX, mouseY)`: `drawGrid` only
draws (it never writes the grid), then every vector of every row is updated
in row-major order. -/
noncomputable def VectorField.update (f : VectorField) (w mouseX mouseY : ℝ) : VectorField :=
  { f with grid := f.grid.map fun row => row.map fun v => v.update w mouseX mouseY }

/-- Line 262: `cols = canvas.width / 28` (no flooring). -/
def setupCols (width : ℚ) : ℚ := width / 28

/-- Line 263: `rows = canvas.height / 28` (no flooring). -/
def setupRows (height : ℚ) : ℚ := height / 28

/-- Lines 249-266, `setup()`: construct the field with offsets `(20, 20)` and
run `init` once. -/
def setupField (width height : ℚ) : VectorField :=
  (VectorField.make (setupCols width) (setupRows height) 20 20).init width height

/-! ### Supporting lemmas -/

/-- The iteration count of `for (let i = 0; i < bound; i++)` is correct
against the loop guard: the body runs for the counter value `n` exactly when
`n < bound`. -/
theorem jsForCount_iff (bound : ℚ) (n : ℕ) : n < jsForCount bound ↔ (n : ℚ) < bound := by
  unfold jsForCount
  rw [Int.lt_toNat, Int.lt_ceil]
  push_cast
  rfl

theorem buildRow_eq_map (s y : ℚ) :
    ∀ (n : ℕ) (x : ℚ),
      buildRow x y s n = (List.range n).map fun (i : ℕ) => Vector.make (x + (i : ℚ) * s) y := by
  intro n
  induction n with
  | zero => intro x; simp [buildRow]
  | succ n ih =>
    intro x
    rw [buildRow, ih (x + s), List.range_succ_eq_map]
    simp only [List.map_cons, List.map_map]
    refine congrArg₂ _ (by norm_num) (List.map_congr_left fun i _ => ?_)
    simp only [Function.comp_apply, Vector.make, Vector.mk.injEq, and_true, true_and,
      eq_self_iff_true]
    push_cast
    ring

theorem buildRows_eq_map (spaceY spaceX : ℚ) (nCols : ℕ) (xOffset : ℚ) :
    ∀ (n : ℕ) (y : ℚ),
      buildRows xOffset y spaceY spaceX nCols n
        = (List.range n).map fun (j : ℕ) =>
            buildRow xOffset (y + (j : ℚ) * spaceY) spaceX nCols := by
  intro n
  induction n with
  | zero => intro y; simp [buildRows]
  | succ n ih =>
    intro y
    rw [buildRows, ih (y + spaceY), List.range_succ_eq_map]
    simp only [List.map_cons, List.map_map]
    refine congrArg₂ _ (by norm_num) (List.map_congr_left fun j _ => ?_)
    simp only [Function.comp_apply]
    refine congrArg₂ (fun a b => buildRow a b spaceX nCols) rfl ?_
    push_cast
    ring

/-- Closed form of one `init` run: cell `(i, j)` holds the vector anchored at
`(xOffset + i * ⌊w / cols⌋, yOffset + j * ⌊h / rows⌋)`. -/
theorem latticeOf_eq (cols rows xOffset yOffset w h : ℚ) :
    latticeOf cols rows xOffset yOffset w h
      = (List.range (jsForCount rows)).map fun (j : ℕ) =>
          (List.range (jsForCount cols)).map fun (i : ℕ) =>
            Vector.make (xOffset + (i : ℚ) * ((Int.floor (w / cols) : ℤ) : ℚ))
              (yOffset + (j : ℚ) * ((Int.floor (h / rows) : ℤ) : ℚ)) := by
  unfold latticeOf
  rw [buildRows_eq_map]
  exact List.map_congr_left fun j _ => buildRow_eq_map _ _ _ _

theorem length_latticeOf (cols rows xOffset yOffset w h : ℚ) :
    (latticeOf cols rows xOffset yOffset w h).length = jsForCount rows := by
  rw [latticeOf_eq]
  simp

theorem length_of_mem_latticeOf (cols rows xOffset yOffset w h : ℚ)
    (row : List Vector) (hrow : row ∈ latticeOf cols rows xOffset yOffset w h) :
    row.length = jsForCount cols := by
  rw [latticeOf_eq] at hrow
  obtain ⟨j, _, rfl⟩ := List.mem_map.mp hrow
  simp

theorem dist_nonneg' (x0 y0 x1 y1 : ℝ) : 0 ≤ dist x0 y0 x1 y1 :=
  Real.sqrt_nonneg _

theorem dist_self_eq_zero (x y : ℝ) : dist x y x y = 0 := by
  simp [dist]

/-- Value of `Math.atan2` in the degenerate case: `atan2(0, 0) = 0`. -/
theorem atan2_zero_zero : Math.atan2 0 0 = 0 := by
  norm_num [Math.atan2]

/-- The ternary on line 114 is exactly the minimum with 30. -/
theorem lenFromFactor_eq_min (f : ℝ) : lenFromFactor f = min (200 * f) 30 := by
  unfold lenFromFactor
  split_ifs with h
  · exact (min_eq_right (le_of_lt h)).symm
  · exact (min_eq_left (not_lt.mp h)).symm

theorem factorOf_nonneg (d w : ℝ) (hd : 0 ≤ d) (hw : 0 < w) : 0 ≤ factorOf d w := by
  unfold factorOf
  positivity

theorem hueFromFactor_nonneg (f : ℝ) (hf : 0 ≤ f) : 0 ≤ hueFromFactor f := by
  unfold hueFromFactor
  have hfloor : (0 : ℤ) ≤ Int.floor (360 * f * 1.1) := by
    rw [Int.le_floor]
    push_cast
    positivity
  rw [Int.tmod_eq_emod hfloor (by norm_num)]
  exact Int.emod_nonneg _ (by norm_num)

theorem hueFromFactor_lt (f : ℝ) (hf : 0 ≤ f) : hueFromFactor f < 360 := by
  unfold hueFromFactor
  have hfloor : (0 : ℤ) ≤ Int.floor (360 * f * 1.1) := by
    rw [Int.le_floor]
    push_cast
    positivity
  rw [Int.tmod_eq_emod hfloor (by norm_num)]
  exact Int.emod_lt_of_pos _ (by norm_num)

/-! ### Claim theorems -/

/-- C1: for every anchor and pointer position, `Vector.update` computes the
length as `min(200 * factor, 30)` with `factor = dist / (width * 1.3)`, so
the computed length lies in `[0, 30]` no matter how far the pointer is. -/
theorem vector_update_len_min (v : Vector) (w mouseX mouseY : ℝ) (hw : 0 < w) :
    (v.update w mouseX mouseY).len
        = some (min (200 * factorOf (dist (v.midX : ℝ) (v.midY : ℝ) mouseX mouseY) w) 30)
    ∧ 0 ≤ min (200 * factorOf (dist (v.midX : ℝ) (v.midY : ℝ) mouseX mouseY) w) 30
    ∧ min (200 * factorOf (dist (v.midX : ℝ) (v.midY : ℝ) mouseX mouseY) w) 30 ≤ 30 := by
  have hf : 0 ≤ factorOf (dist (v.midX : ℝ) (v.midY : ℝ) mouseX mouseY) w :=
    factorOf_nonneg _ _ (dist_nonneg' _ _ _ _) hw
  refine ⟨?_, le_min (by positivity) (by norm_num), min_le_right _ _⟩
  rw [Vector.update, lenFromFactor_eq_min]

theorem vector_update_len_min_witness :
    (0 : ℝ) < 1000
    ∧ (((Vector.make 0 0).update 1000 100 0).len
          = some (min (200 * factorOf
              (dist ((Vector.make 0 0).midX : ℝ) ((Vector.make 0 0).midY : ℝ) 100 0) 1000) 30)
        ∧ 0 ≤ min (200 * factorOf
              (dist ((Vector.make 0 0).midX : ℝ) ((Vector.make 0 0).midY : ℝ) 100 0) 1000) 30
        ∧ min (200 * factorOf
              (dist ((Vector.make 0 0).midX : ℝ) ((Vector.make 0 0).midY : ℝ) 100 0) 1000) 30 ≤ 30) :=
  ⟨by norm_num, vector_update_len_min (Vector.make 0 0) 1000 100 0 (by norm_num)⟩

/-- C2: `Vector.update` computes the hue as
`floor(360 * factor * 1.1) % 360` (truncated remainder), and for any
non-negative factor — arbitrarily large included — the hue lies in
`[0, 360)`. -/
theorem vector_update_hue_range (v : Vector) (w mouseX mouseY f : ℝ)
    (hw : 0 < w) (hf : 0 ≤ f) :
    v.updateHue w mouseX mouseY
        = (Int.floor (360 * factorOf (dist (v.midX : ℝ) (v.midY : ℝ) mouseX mouseY) w * 1.1)).tmod 360
    ∧ 0 ≤ v.updateHue w mouseX mouseY
    ∧ v.updateHue w mouseX mouseY < 360
    ∧ 0 ≤ hueFromFactor f
    ∧ hueFromFactor f < 360 := by
  have h0 : 0 ≤ factorOf (dist (v.midX : ℝ) (v.midY : ℝ) mouseX mouseY) w :=
    factorOf_nonneg _ _ (dist_nonneg' _ _ _ _) hw
  exact ⟨rfl, hueFromFactor_nonneg _ h0, hueFromFactor_lt _ h0,
    hueFromFactor_nonneg f hf, hueFromFactor_lt f hf⟩

theorem vector_update_hue_range_witness :
    (0 : ℝ) < 10
    ∧ (0 : ℝ) ≤ 1000000
    ∧ ((Vector.make 0 0).updateHue 10 3 4
          = (Int.floor (360 * factorOf
              (dist ((Vector.make 0 0).midX : ℝ) ((Vector.make 0 0).midY : ℝ) 3 4) 10 * 1.1)).tmod 360
        ∧ 0 ≤ (Vector.make 0 0).updateHue 10 3 4
        ∧ (Vector.make 0 0).updateHue 10 3 4 < 360
        ∧ 0 ≤ hueFromFactor 1000000
        ∧ hueFromFactor 1000000 < 360) :=
  ⟨by norm_num, by norm_num,
    vector_update_hue_range (Vector.make 0 0) 10 3 4 1000000 (by norm_num) (by norm_num)⟩

/-- C6: when the pointer coincides with the anchor, `Vector.update` yields
angle 0, distance 0, length 0 and hue 0, and is total (no error case).  The
positive-width hypothesis records the operating condition of the program
(`canvas.width = window.innerWidth > 0`); over the reals the conclusion does
not depend on it. -/
theorem vector_update_degenerate (v : Vector) (w : ℝ) (_hw : 0 < w) :
    (v.update w (v.midX : ℝ) (v.midY : ℝ)).angle = some 0
    ∧ dist (v.midX : ℝ) (v.midY : ℝ) (v.midX : ℝ) (v.midY : ℝ) = 0
    ∧ (v.update w (v.midX : ℝ) (v.midY : ℝ)).len = some 0
    ∧ v.updateHue w (v.midX : ℝ) (v.midY : ℝ) = 0 := by
  refine ⟨?_, dist_self_eq_zero _ _, ?_, ?_⟩
  · rw [Vector.update]
    simp only [angleBetween, sub_self, atan2_zero_zero]
  · rw [Vector.update]
    simp only [dist_self_eq_zero, factorOf, zero_div, lenFromFactor]
    norm_num
  · rw [Vector.updateHue]
    simp only [dist_self_eq_zero, factorOf, zero_div, hueFromFactor]
    norm_num

theorem vector_update_degenerate_witness :
    (0 : ℝ) < 280
    ∧ (((Vector.make 100 100).update 280
            ((Vector.make 100 100).midX : ℝ) ((Vector.make 100 100).midY : ℝ)).angle = some 0
        ∧ dist ((Vector.make 100 100).midX : ℝ) ((Vector.make 100 100).midY : ℝ)
            ((Vector.make 100 100).midX : ℝ) ((Vector.make 100 100).midY : ℝ) = 0
        ∧ ((Vector.make 100 100).update 280
            ((Vector.make 100 100).midX : ℝ) ((Vector.make 100 100).midY : ℝ)).len = some 0
        ∧ (Vector.make 100 100).updateHue 280
            ((Vector.make 100 100).midX : ℝ) ((Vector.make 100 100).midY : ℝ) = 0) :=
  ⟨by norm_num, vector_update_degenerate (Vector.make 100 100) 280 (by norm_num)⟩

/-- C7: the segment computed by `Vector.draw` has the anchor as its exact
midpoint, and the arrowhead is drawn at the endpoint `(x0, y0)`, which equals
the anchor plus half the delta `(len * cos angle, len * sin angle)`. -/
theorem draw_centered_on_anchor (midX midY angle len : ℝ) :
    ((Vector.draw midX midY angle len).x0 + (Vector.draw midX midY angle len).x1) / 2 = midX
    ∧ ((Vector.draw midX midY angle len).y0 + (Vector.draw midX midY angle len).y1) / 2 = midY
    ∧ (Vector.draw midX midY angle len).arrowX = (Vector.draw midX midY angle len).x0
    ∧ (Vector.draw midX midY angle len).arrowY = (Vector.draw midX midY angle len).y0
    ∧ (Vector.draw midX midY angle len).x0 = midX + len * Real.cos angle / 2
    ∧ (Vector.draw midX midY angle len).y0 = midY + len * Real.sin angle / 2 := by
  refine ⟨?_, ?_, rfl, rfl, rfl, rfl⟩
  · show (midX + len * Real.cos angle / 2 + (midX + len * Real.cos angle / 2 - len * Real.cos angle)) / 2 = midX
    ring
  · show (midY + len * Real.sin angle / 2 + (midY + len * Real.sin angle / 2 - len * Real.sin angle)) / 2 = midY
    ring

/-- Cell `(i, j)` of one freshly built lattice. -/
theorem latticeOf_anchor (cols rows xOffset yOffset w h : ℚ) (i j : ℕ)
    (hi : i < jsForCount cols) (hj : j < jsForCount rows) :
    (((latticeOf cols rows xOffset yOffset w h).getD j []).getD i default).anchor
      = (xOffset + (i : ℚ) * ((Int.floor (w / cols) : ℤ) : ℚ),
         yOffset + (j : ℚ) * ((Int.floor (h / rows) : ℤ) : ℚ)) := by
  simp only [latticeOf_eq, List.getD_eq_getElem?_getD, List.getElem?_map,
    List.getElem?_range hj, List.getElem?_range hi, Option.map_some', Option.getD_some]
  simp [Vector.make, Vector.anchor]

/-- The grid after construction plus a single `init` is exactly one lattice. -/
theorem make_init_grid (cols rows xOffset yOffset w h : ℚ) :
    ((VectorField.make cols rows xOffset yOffset).init w h).grid
      = latticeOf cols rows xOffset yOffset w h := by
  simp [VectorField.make, VectorField.init]

/-- C3: `VectorField.init` places anchors on a regular lattice with spacing
`⌊width / cols⌋ × ⌊height / rows⌋`: cell `(i, j)` is anchored at
`(xOffset + i * spaceX, yOffset + j * spaceY)`; in particular on a 280×280
surface with `cols = rows = 10` and offset `(20, 20)` the spacing is 28, the
first anchor is `(20, 20)` and the last is `(272, 272)`. -/
theorem init_regular_lattice (cols rows xOffset yOffset w h : ℚ) (i j : ℕ)
    (hi : i < jsForCount cols) (hj : j < jsForCount rows) :
    ((((VectorField.make cols rows xOffset yOffset).init w h).grid.getD j []).getD i default).anchor
        = (xOffset + (i : ℚ) * ((Int.floor (w / cols) : ℤ) : ℚ),
           yOffset + (j : ℚ) * ((Int.floor (h / rows) : ℤ) : ℚ))
    ∧ ((Int.floor ((280 : ℚ) / 10) : ℤ) : ℚ) = 28
    ∧ ((((VectorField.make 10 10 20 20).init 280 280).grid.getD 0 []).getD 0 default).anchor
        = (20, 20)
    ∧ ((((VectorField.make 10 10 20 20).init 280 280).grid.getD 9 []).getD 9 default).anchor
        = (272, 272) := by
  have h10 : (9 : ℕ) < jsForCount 10 ∧ (0 : ℕ) < jsForCount 10 := by
    constructor <;> simp [jsForCount]
  refine ⟨?_, by norm_num, ?_, ?_⟩
  · rw [make_init_grid]
    exact latticeOf_anchor cols rows xOffset yOffset w h i j hi hj
  · rw [make_init_grid, latticeOf_anchor 10 10 20 20 280 280 0 0 h10.2 h10.2]
    norm_num [Prod.ext_iff]
  · rw [make_init_grid, latticeOf_anchor 10 10 20 20 280 280 9 9 h10.1 h10.1]
    norm_num [Prod.ext_iff]

theorem init_regular_lattice_witness :
    (9 : ℕ) < jsForCount 10
    ∧ (((((VectorField.make 10 10 20 20).init 280 280).grid.getD 9 []).getD 9 default).anchor
          = (20 + ((9 : ℕ) : ℚ) * ((Int.floor ((280 : ℚ) / 10) : ℤ) : ℚ),
             20 + ((9 : ℕ) : ℚ) * ((Int.floor ((280 : ℚ) / 10) : ℤ) : ℚ))
        ∧ ((Int.floor ((280 : ℚ) / 10) : ℤ) : ℚ) = 28
        ∧ ((((VectorField.make 10 10 20 20).init 280 280).grid.getD 0 []).getD 0 default).anchor
            = (20, 20)
        ∧ ((((VectorField.make 10 10 20 20).init 280 280).grid.getD 9 []).getD 9 default).anchor
            = (272, 272)) :=
  ⟨by simp [jsForCount],
    init_regular_lattice 10 10 20 20 280 280 9 9 (by simp [jsForCount]) (by simp [jsForCount])⟩

/-- C4 counterexample: `init` is not idempotent — after construction, running
`init` twice with identical inputs yields a grid with four rows where a
single run yields two (`init` pushes onto the existing `grid` without
clearing it). -/
theorem init_not_idempotent :
    ¬ ((((VectorField.make 2 2 20 20).init 280 280).init 280 280).grid.length
        = (((VectorField.make 2 2 20 20).init 280 280)).grid.length) := by
  decide

/-- C4 (amended): a second run of `init` with the same inputs appends an
identical copy of the lattice to the grid instead of leaving it unchanged:
the grid after two runs is the single-run grid concatenated with itself. -/
theorem init_appends_identical_lattice (cols rows xOffset yOffset w h : ℚ) :
    (((VectorField.make cols rows xOffset yOffset).init w h).init w h).grid
      = ((VectorField.make cols rows xOffset yOffset).init w h).grid
        ++ ((VectorField.make cols rows xOffset yOffset).init w h).grid := by
  simp [VectorField.make, VectorField.init]

/-- C5: after initialization no operation moves an anchor or reshapes the
grid: `Vector.update` rewrites only `angle` and `len`, and
`VectorField.update` preserves `size`, `offsets`, the number of rows, every
row length and every anchor. -/
theorem update_preserves_anchors (fld : VectorField) (w mouseX mouseY : ℝ) :
    (∀ v : Vector,
      (v.update w mouseX mouseY).midX = v.midX ∧ (v.update w mouseX mouseY).midY = v.midY)
    ∧ (fld.update w mouseX mouseY).size = fld.size
    ∧ (fld.update w mouseX mouseY).offsets = fld.offsets
    ∧ (fld.update w mouseX mouseY).grid.length = fld.grid.length
    ∧ (fld.update w mouseX mouseY).grid.map List.length = fld.grid.map List.length
    ∧ (fld.update w mouseX mouseY).grid.map (List.map Vector.anchor)
        = fld.grid.map (List.map Vector.anchor) := by
  refine ⟨fun v => ⟨rfl, rfl⟩, rfl, rfl, ?_, ?_, ?_⟩
  · simp [VectorField.update]
  · simp only [VectorField.update, List.map_map]
    exact List.map_congr_left fun row _ => by simp
  · simp only [VectorField.update, List.map_map]
    refine List.map_congr_left fun row _ => ?_
    simp only [Function.comp_apply, List.map_map]
    exact List.map_congr_left fun v _ => rfl

theorem jsForCount_natCast (n : ℕ) : jsForCount ((n : ℕ) : ℚ) = n := by
  unfold jsForCount
  rw [Int.ceil_natCast, Int.toNat_natCast]

/-- Spec-side description (spec §4.2 / §8) of what `drawGrid` should emit
horizontally: one line per row, at the y-coordinate of that row, spanning the full
surface width.  This is the refinement target for `drawGridSegments`. -/
def specHorizontalLines (rows : ℕ) (yOffset spaceY w : ℚ) : List Segment :=
  (List.range rows).map fun (j : ℕ) =>
    { x0 := 0, y0 := yOffset + (j : ℚ) * spaceY, x1 := w, y1 := yOffset + (j : ℚ) * spaceY }

/-- Spec-side description of what `drawGrid` should emit vertically: one line
per column, at the x-coordinate of that column, spanning the full surface
height. -/
def specVerticalLines (cols : ℕ) (xOffset spaceX h : ℚ) : List Segment :=
  (List.range cols).map fun (i : ℕ) =>
    { x0 := xOffset + (i : ℚ) * spaceX, y0 := 0, x1 := xOffset + (i : ℚ) * spaceX, y1 := h }

/-- C8: for an initialized field, `drawGrid` emits exactly `rows` horizontal
segments (one at the y-coordinate of each row, from `x = 0` to the full surface
width) followed by exactly `cols` vertical segments (one at the x-coordinate of
each column, from `y = 0` to the full surface height). -/
theorem drawGrid_emits_rows_and_cols (cols rows : ℕ) (xOffset yOffset w h : ℚ)
    (hc : 0 < cols) (hr : 0 < rows) :
    ((VectorField.make ((cols : ℕ) : ℚ) ((rows : ℕ) : ℚ) xOffset yOffset).init w h).drawGridSegments w h
        = specHorizontalLines rows yOffset ((Int.floor (h / ((rows : ℕ) : ℚ)) : ℤ) : ℚ) w
          ++ specVerticalLines cols xOffset ((Int.floor (w / ((cols : ℕ) : ℚ)) : ℤ) : ℚ) h
    ∧ (((VectorField.make ((cols : ℕ) : ℚ) ((rows : ℕ) : ℚ) xOffset yOffset).init w h).drawGridSegments w h).length
        = rows + cols := by
  obtain ⟨c, rfl⟩ : ∃ c, cols = c + 1 := ⟨cols - 1, (Nat.succ_pred_eq_of_pos hc).symm⟩
  obtain ⟨r, rfl⟩ : ∃ r, rows = r + 1 := ⟨rows - 1, (Nat.succ_pred_eq_of_pos hr).symm⟩
  have hgrid : ((VectorField.make ((c + 1 : ℕ) : ℚ) ((r + 1 : ℕ) : ℚ) xOffset yOffset).init w h).grid
      = (List.range (r + 1)).map fun (j : ℕ) =>
          (List.range (c + 1)).map fun (i : ℕ) =>
            Vector.make (xOffset + (i : ℚ) * ((Int.floor (w / ((c + 1 : ℕ) : ℚ)) : ℤ) : ℚ))
              (yOffset + (j : ℚ) * ((Int.floor (h / ((r + 1 : ℕ) : ℚ)) : ℤ) : ℚ)) := by
    rw [make_init_grid, latticeOf_eq, jsForCount_natCast, jsForCount_natCast]
  have heq : ((VectorField.make ((c + 1 : ℕ) : ℚ) ((r + 1 : ℕ) : ℚ) xOffset yOffset).init w h).drawGridSegments w h
      = specHorizontalLines (r + 1) yOffset ((Int.floor (h / ((r + 1 : ℕ) : ℚ)) : ℤ) : ℚ) w
        ++ specVerticalLines (c + 1) xOffset ((Int.floor (w / ((c + 1 : ℕ) : ℚ)) : ℤ) : ℚ) h := by
    rw [VectorField.drawGridSegments, hgrid]
    congr 1
    · rw [List.map_map, specHorizontalLines]
      refine List.map_congr_left fun j _ => ?_
      simp only [Function.comp_apply]
      rw [show List.range (c + 1) = 0 :: (List.range c).map Nat.succ from
        List.range_succ_eq_map c]
      simp [Vector.make]
    · rw [show List.range (r + 1) = 0 :: (List.range r).map Nat.succ from
        List.range_succ_eq_map r]
      rw [List.map_cons, List.headI_cons, List.map_map, specVerticalLines]
      refine List.map_congr_left fun i _ => ?_
      simp [Vector.make]
  refine ⟨heq, ?_⟩
  rw [heq]
  simp [specHorizontalLines, specVerticalLines]

theorem drawGrid_emits_rows_and_cols_witness :
    (0 : ℕ) < 10
    ∧ (((VectorField.make ((10 : ℕ) : ℚ) ((10 : ℕ) : ℚ) 20 20).init 280 280).drawGridSegments 280 280
          = specHorizontalLines 10 20 ((Int.floor ((280 : ℚ) / ((10 : ℕ) : ℚ)) : ℤ) : ℚ) 280
            ++ specVerticalLines 10 20 ((Int.floor ((280 : ℚ) / ((10 : ℕ) : ℚ)) : ℤ) : ℚ) 280
        ∧ (((VectorField.make ((10 : ℕ) : ℚ) ((10 : ℕ) : ℚ) 20 20).init 280 280).drawGridSegments 280 280).length
          = 10 + 10) :=
  ⟨by norm_num, drawGrid_emits_rows_and_cols 10 10 20 20 280 280 (by norm_num) (by norm_num)⟩

/-- C9: `init` is deterministic — two fields constructed and initialized from
identical `(cols, rows, offsets, width, height)` carry identical grids, hence
identical anchor coordinates in every cell. -/
theorem init_deterministic (c1 r1 x1 y1 w1 h1 c2 r2 x2 y2 w2 h2 : ℚ)
    (hc : c1 = c2) (hr : r1 = r2) (hx : x1 = x2) (hy : y1 = y2)
    (hw : w1 = w2) (hh : h1 = h2) :
    ((VectorField.make c1 r1 x1 y1).init w1 h1).grid
      = ((VectorField.make c2 r2 x2 y2).init w2 h2).grid := by
  subst hc hr hx hy hw hh
  rfl

theorem init_deterministic_witness :
    (10 : ℚ) = 10 ∧ (10 : ℚ) = 10 ∧ (20 : ℚ) = 20 ∧ (20 : ℚ) = 20
    ∧ (280 : ℚ) = 280 ∧ (280 : ℚ) = 280
    ∧ ((VectorField.make 10 10 20 20).init 280 280).grid
        = ((VectorField.make 10 10 20 20).init 280 280).grid :=
  ⟨rfl, rfl, rfl, rfl, rfl, rfl,
    init_deterministic 10 10 20 20 280 280 10 10 20 20 280 280 rfl rfl rfl rfl rfl rfl⟩

/-- C10: `setup` passes non-integer `cols = width / 28` and
`rows = height / 28` straight to `VectorField`, and the loop guards of `init`,
`i < cols`, `j < rows` run one extra iteration past the integer part: the
grid has `⌈rows⌉` rows of `⌈cols⌉` vectors each, the guard being satisfied by
a counter value `n` exactly when `n < jsForCount bound`. -/
theorem setup_fractional_grid_shape (width height : ℚ) :
    (setupField width height).grid.map List.length
        = List.replicate (Int.ceil (setupRows height)).toNat (Int.ceil (setupCols width)).toNat
    ∧ (setupField width height).grid.length = (Int.ceil (setupRows height)).toNat
    ∧ (∀ n : ℕ, n < jsForCount (setupCols width) ↔ (n : ℚ) < setupCols width) := by
  refine ⟨?_, ?_, fun n => jsForCount_iff (setupCols width) n⟩
  · rw [setupField, make_init_grid, latticeOf_eq, List.map_map]
    rw [List.eq_replicate_iff]
    refine ⟨by simp [jsForCount], fun b hb => ?_⟩
    obtain ⟨j, _, rfl⟩ := List.mem_map.mp hb
    simp [jsForCount]
  · rw [setupField, make_init_grid, length_latticeOf]
    rfl

end CanvasField
